import Mathlib

/-
Verification of the gaze-to-fixation pipeline of the Dyslexia-Project
repository (`DyslexiaWebsite.py`): the `PupilTracker` class with its
`detect_fixation` sliding-window fixation detector and `detect_pupil`
iris-centre locator.

Modelling conventions:
* Python floats are embedded as exact rationals (ℚ).
* `scipy.spatial.distance.euclidean(a, b) < 20` is embedded as the exact
  comparison `sqDist a b < 20 ^ 2`, which is equivalent for real numbers
  because `Real.sqrt` is strictly monotone on nonnegatives; the
  equivalence with the square-root form is proved where a claim speaks of
  Euclidean distance.
* `collections.deque(maxlen=10)` is embedded as a list that drops from
  the front once its length exceeds 10 after an append.
* `numpy .astype(int)` truncates toward zero; embedded as `ratTrunc`.
* fallible operations (Python exceptions such as an index error) are
  embedded with `Option`.
-/

unseal Rat.mul Rat.add Rat.sub Rat.inv

namespace Dyslexia

/-- One entry of `positions_history`: the pair `(position, timestamp)`
pushed by `detect_fixation`, with `position = (x, y)`. -/
abbrev Sample : Type := (ℚ × ℚ) × ℚ

/-- The dictionary built at line 75 of `DyslexiaWebsite.py`:
`{'start_time': …, 'position': …, 'duration': …}`.  The `position` value
is an `Option` because the source guards it with
`if len(positions) > 0 else None`. -/
structure Fixation where
  start_time : ℚ
  position : Option (ℚ × ℚ)
  duration : ℚ
deriving DecidableEq

/-- The mutable state of a `PupilTracker` that `detect_fixation` touches:
`positions_history` (deque, maxlen 10), `current_fixation` (the open
slot) and `fixations` (the closed-fixation log). -/
structure TrackerState where
  positions_history : List Sample
  current_fixation : Option Fixation
  fixations : List Fixation
deriving DecidableEq

/-- `self.fixation_threshold = 20  # pixels` (line 29). -/
def fixation_threshold : ℚ := 20

/-- `self.fixation_duration = 30  # milliseconds` (line 30). -/
def fixation_duration : ℚ := 30

/-- `deque(maxlen=10)` capacity (line 31). -/
def history_maxlen : Nat := 10

/-- Appending to `deque(maxlen=10)`: append on the right and drop from
the left whatever exceeds the capacity. -/
def pushWindow (w : List Sample) (e : Sample) : List Sample :=
  let w' := w ++ [e]
  w'.drop (w'.length - history_maxlen)

/-- Squared Euclidean distance between two positions.  The source
compares `euclidean(positions[0], p) < 20`; we compare the square with
`20 ^ 2`, exactly equivalent over the reals. -/
def sqDist (p q : ℚ × ℚ) : ℚ :=
  (p.1 - q.1) ^ 2 + (p.2 - q.2) ^ 2

/-- Line 70: `max([euclidean(positions[0], p) for p in positions])`,
with every distance squared.  The comprehension runs over the whole
window, its first element included, so the fold starts from
`sqDist p.1 p.1` (the pivot against itself). -/
def maxSqDist : List Sample → ℚ
  | [] => 0
  | p :: rest => (rest.map (fun q => sqDist p.1 q.1)).foldl max (sqDist p.1 p.1)

/-- `timestamps[0]`: timestamp of the oldest sample in the window. -/
def firstTs (w : List Sample) : ℚ :=
  ((w.head?).getD ((0, 0), 0)).2

/-- `timestamps[-1]`: timestamp of the newest sample in the window. -/
def lastTs (w : List Sample) : ℚ :=
  ((w.getLast?).getD ((0, 0), 0)).2

/-- Line 71: `duration = timestamps[-1] - timestamps[0]`. -/
def spanOf (w : List Sample) : ℚ :=
  lastTs w - firstTs w

/-- Line 77: `np.mean(positions, axis=0)` — per-axis arithmetic mean of
all positions in the window. -/
def meanPos (w : List Sample) : ℚ × ℚ :=
  ((w.map (fun p => p.1.1)).sum / (w.length : ℚ),
   (w.map (fun p => p.1.2)).sum / (w.length : ℚ))

/-- `PupilTracker.detect_fixation` (lines 60–87), as a pure step
function from the touched state to the new state paired with the
returned value (`self.current_fixation` after the update, line 87). -/
def detect_fixation (s : TrackerState) (current_position : ℚ × ℚ)
    (timestamp : ℚ) : TrackerState × Option Fixation :=
  let hist := pushWindow s.positions_history (current_position, timestamp)
  if hist.length < 2 then
    ({ s with positions_history := hist }, none)
  else
    let max_distance := maxSqDist hist
    let duration := spanOf hist
    if max_distance < fixation_threshold ^ 2 ∧ fixation_duration ≤ duration then
      match s.current_fixation with
      | none =>
        let f : Fixation :=
          { start_time := firstTs hist
            position := if 0 < hist.length then some (meanPos hist) else none
            duration := duration }
        ({ s with positions_history := hist, current_fixation := some f }, some f)
      | some f =>
        let f' : Fixation := { f with duration := duration }
        ({ s with positions_history := hist, current_fixation := some f' }, some f')
    else
      match s.current_fixation with
      | none => ({ s with positions_history := hist }, none)
      | some f =>
        ({ s with
            positions_history := hist
            current_fixation := none
            fixations := s.fixations ++ [f] }, none)

/-- The fixation-relevant state of a freshly constructed `PupilTracker`
(lines 31–33): empty history, no open fixation, empty log. -/
def initState : TrackerState :=
  { positions_history := [], current_fixation := none, fixations := [] }

/-- Feeding `detect_fixation` a sequence of `(position, timestamp)`
observations, keeping only the state. -/
def run (s : TrackerState) (inputs : List Sample) : TrackerState :=
  inputs.foldl (fun t e => (detect_fixation t e.1 e.2).1) s

/-- Truncation toward zero, the semantics of numpy `.astype(int)`. -/
def ratTrunc (q : ℚ) : ℤ :=
  if 0 ≤ q then ⌊q⌋ else ⌈q⌉

/-- Line 44: one mesh point — denormalize `[p.x, p.y]` by
`[frame.shape[1], frame.shape[0]]` (width, height) and truncate to
integer pixels. -/
def meshPoint (width height : ℕ) (p : ℚ × ℚ) : ℤ × ℤ :=
  (ratTrunc (p.1 * (width : ℚ)), ratTrunc (p.2 * (height : ℚ)))

/-- Lines 53–54: `np.mean(iris, axis=0).astype(int)` — per-axis mean of
the selected integer mesh points, truncated to integers. -/
def irisMean (pts : List (ℤ × ℤ)) : ℤ × ℤ :=
  (ratTrunc (((pts.map Prod.fst).sum : ℚ) / (pts.length : ℚ)),
   ratTrunc (((pts.map Prod.snd).sum : ℚ) / (pts.length : ℚ)))

/-- `PupilTracker.detect_pupil` (lines 38–58), parametrized by the
landmark source outcome.  `landmarks = none` models
`results.multi_face_landmarks` empty: the function returns
`(None, None)` without raising (outer `some`).  With landmarks present,
the mesh is denormalized and the two iris index sets are used to pick
and average points; an out-of-range index (a Python `IndexError`) or an
empty index set (numpy mean of an empty array) yields the outer `none`,
modelling failure. -/
def detect_pupil (landmarks : Option (List (ℚ × ℚ))) (width height : ℕ)
    (leftIris rightIris : List ℕ) :
    Option (Option (ℤ × ℤ) × Option (ℤ × ℤ)) :=
  match landmarks with
  | none => some (none, none)
  | some lms =>
    let mesh_points := lms.map (meshPoint width height)
    match leftIris.mapM (fun i => mesh_points.get? i),
        rightIris.mapM (fun i => mesh_points.get? i) with
    | some li, some ri =>
      if li.isEmpty ∨ ri.isEmpty then none
      else some (some (irisMean li), some (irisMean ri))
    | _, _ => none

/-- `positions[0]`: position of the oldest sample in the window, the
pivot of the dispersion measure. -/
def firstPos (w : List Sample) : ℚ × ℚ :=
  ((w.head?).getD ((0, 0), 0)).1

lemma pushWindow_length (w : List Sample) (e : Sample) :
    (pushWindow w e).length = min (w.length + 1) history_maxlen := by
  simp only [pushWindow, history_maxlen, List.length_drop, List.length_append,
    List.length_singleton]
  omega

lemma pushWindow_eq_drop (w : List Sample) (e : Sample) :
    pushWindow w e = w.drop (w.length + 1 - history_maxlen) ++ [e] := by
  simp only [pushWindow, history_maxlen, List.length_append,
    List.length_singleton]
  exact List.drop_append_of_le_length (by omega)

lemma pushWindow_getLast (w : List Sample) (e : Sample) :
    (pushWindow w e).getLast? = some e := by
  rw [pushWindow_eq_drop]
  exact List.getLast?_concat _

lemma step_short (s : TrackerState) (pos : ℚ × ℚ) (ts : ℚ)
    (h : (pushWindow s.positions_history (pos, ts)).length < 2) :
    detect_fixation s pos ts =
      ({ s with positions_history := pushWindow s.positions_history (pos, ts) },
        none) := by
  simp only [detect_fixation, if_pos h]

lemma step_stable_none (s : TrackerState) (pos : ℚ × ℚ) (ts : ℚ)
    (hn : s.current_fixation = none)
    (h2 : 2 ≤ (pushWindow s.positions_history (pos, ts)).length)
    (hst : maxSqDist (pushWindow s.positions_history (pos, ts)) <
        fixation_threshold ^ 2 ∧
      fixation_duration ≤ spanOf (pushWindow s.positions_history (pos, ts))) :
    detect_fixation s pos ts =
      ({ s with
          positions_history := pushWindow s.positions_history (pos, ts)
          current_fixation := some
            ⟨firstTs (pushWindow s.positions_history (pos, ts)),
             some (meanPos (pushWindow s.positions_history (pos, ts))),
             spanOf (pushWindow s.positions_history (pos, ts))⟩ },
        some ⟨firstTs (pushWindow s.positions_history (pos, ts)),
          some (meanPos (pushWindow s.positions_history (pos, ts))),
          spanOf (pushWindow s.positions_history (pos, ts))⟩) := by
  have hlt : ¬ (pushWindow s.positions_history (pos, ts)).length < 2 := by omega
  have hpos : 0 < (pushWindow s.positions_history (pos, ts)).length := by omega
  simp only [detect_fixation, hn, if_neg hlt, if_pos hst, if_pos hpos]

lemma step_stable_some (s : TrackerState) (pos : ℚ × ℚ) (ts : ℚ) (f : Fixation)
    (hf : s.current_fixation = some f)
    (h2 : 2 ≤ (pushWindow s.positions_history (pos, ts)).length)
    (hst : maxSqDist (pushWindow s.positions_history (pos, ts)) <
        fixation_threshold ^ 2 ∧
      fixation_duration ≤ spanOf (pushWindow s.positions_history (pos, ts))) :
    detect_fixation s pos ts =
      ({ s with
          positions_history := pushWindow s.positions_history (pos, ts)
          current_fixation := some
            ⟨f.start_time, f.position,
             spanOf (pushWindow s.positions_history (pos, ts))⟩ },
        some ⟨f.start_time, f.position,
          spanOf (pushWindow s.positions_history (pos, ts))⟩) := by
  have hlt : ¬ (pushWindow s.positions_history (pos, ts)).length < 2 := by omega
  simp only [detect_fixation, hf, if_neg hlt, if_pos hst]

lemma step_unstable_none (s : TrackerState) (pos : ℚ × ℚ) (ts : ℚ)
    (hn : s.current_fixation = none)
    (h2 : 2 ≤ (pushWindow s.positions_history (pos, ts)).length)
    (hst : ¬ (maxSqDist (pushWindow s.positions_history (pos, ts)) <
        fixation_threshold ^ 2 ∧
      fixation_duration ≤ spanOf (pushWindow s.positions_history (pos, ts)))) :
    detect_fixation s pos ts =
      ({ s with positions_history := pushWindow s.positions_history (pos, ts) },
        none) := by
  have hlt : ¬ (pushWindow s.positions_history (pos, ts)).length < 2 := by omega
  simp only [detect_fixation, hn, if_neg hlt, if_neg hst]

lemma step_unstable_some (s : TrackerState) (pos : ℚ × ℚ) (ts : ℚ) (f : Fixation)
    (hf : s.current_fixation = some f)
    (h2 : 2 ≤ (pushWindow s.positions_history (pos, ts)).length)
    (hst : ¬ (maxSqDist (pushWindow s.positions_history (pos, ts)) <
        fixation_threshold ^ 2 ∧
      fixation_duration ≤ spanOf (pushWindow s.positions_history (pos, ts)))) :
    detect_fixation s pos ts =
      ({ s with
          positions_history := pushWindow s.positions_history (pos, ts)
          current_fixation := none
          fixations := s.fixations ++ [f] },
        none) := by
  have hlt : ¬ (pushWindow s.positions_history (pos, ts)).length < 2 := by omega
  simp only [detect_fixation, hf, if_neg hlt, if_neg hst]

lemma foldl_max_lt_iff (c : ℚ) (l : List ℚ) : ∀ a : ℚ,
    l.foldl max a < c ↔ a < c ∧ ∀ x ∈ l, x < c := by
  induction l with
  | nil => intro a; simp
  | cons x t ih =>
    intro a
    simp only [List.foldl_cons, ih, max_lt_iff, List.forall_mem_cons]
    tauto

lemma maxSqDist_lt_iff (p : Sample) (rest : List Sample) (c : ℚ) :
    maxSqDist (p :: rest) < c ↔ ∀ q ∈ p :: rest, sqDist p.1 q.1 < c := by
  simp only [maxSqDist, foldl_max_lt_iff, List.forall_mem_cons,
    List.forall_mem_map]

lemma maxSqDist_lt_iff_firstPos (w : List Sample) (hw : w ≠ []) (c : ℚ) :
    maxSqDist w < c ↔ ∀ q ∈ w, sqDist (firstPos w) q.1 < c := by
  cases w with
  | nil => exact absurd rfl hw
  | cons p rest => simpa [firstPos] using maxSqDist_lt_iff p rest c

lemma sqrt_lt_twenty_iff (d : ℚ) : Real.sqrt (d : ℝ) < 20 ↔ d < 400 := by
  rw [Real.sqrt_lt' (by norm_num : (0 : ℝ) < 20)]
  have h1 : ((20 : ℝ) ^ 2) = ((400 : ℚ) : ℝ) := by norm_num
  rw [h1]
  exact_mod_cast Iff.rfl

lemma isSome_iff_stable (s : TrackerState) (pos : ℚ × ℚ) (ts : ℚ)
    (h2 : 2 ≤ (pushWindow s.positions_history (pos, ts)).length) :
    (detect_fixation s pos ts).2.isSome = true ↔
      (maxSqDist (pushWindow s.positions_history (pos, ts)) <
          fixation_threshold ^ 2 ∧
        fixation_duration ≤ spanOf (pushWindow s.positions_history (pos, ts))) := by
  by_cases hst : maxSqDist (pushWindow s.positions_history (pos, ts)) <
      fixation_threshold ^ 2 ∧
    fixation_duration ≤ spanOf (pushWindow s.positions_history (pos, ts))
  · cases hc : s.current_fixation with
    | none => rw [step_stable_none s pos ts hc h2 hst]; simpa using hst
    | some f => rw [step_stable_some s pos ts f hc h2 hst]; simpa using hst
  · cases hc : s.current_fixation with
    | none => rw [step_unstable_none s pos ts hc h2 hst]; simpa using hst
    | some f => rw [step_unstable_some s pos ts f hc h2 hst]; simpa using hst

lemma step_positions_history (s : TrackerState) (pos : ℚ × ℚ) (ts : ℚ) :
    (detect_fixation s pos ts).1.positions_history =
      pushWindow s.positions_history (pos, ts) := by
  by_cases h2 : (pushWindow s.positions_history (pos, ts)).length < 2
  · rw [step_short s pos ts h2]
  · have h2' : 2 ≤ (pushWindow s.positions_history (pos, ts)).length := by omega
    by_cases hst : maxSqDist (pushWindow s.positions_history (pos, ts)) <
        fixation_threshold ^ 2 ∧
      fixation_duration ≤ spanOf (pushWindow s.positions_history (pos, ts))
    · cases hc : s.current_fixation with
      | none => rw [step_stable_none s pos ts hc h2' hst]
      | some f => rw [step_stable_some s pos ts f hc h2' hst]
    · cases hc : s.current_fixation with
      | none => rw [step_unstable_none s pos ts hc h2' hst]
      | some f => rw [step_unstable_some s pos ts f hc h2' hst]

lemma run_cons (s : TrackerState) (e : Sample) (rest : List Sample) :
    run s (e :: rest) = run (detect_fixation s e.1 e.2).1 rest := rfl

lemma run_window_le (inputs : List Sample) : ∀ s : TrackerState,
    s.positions_history.length ≤ 10 →
    (run s inputs).positions_history.length ≤ 10 := by
  induction inputs with
  | nil => intro s h; exact h
  | cons e rest ih =>
    intro s h
    rw [run_cons]
    refine ih _ ?_
    rw [step_positions_history, pushWindow_length]
    simp only [history_maxlen]
    omega

/-- Invariant behind C10: any open fixation, and every fixation in the
closed log, carries a concrete position. -/
def posInv (s : TrackerState) : Prop :=
  (∀ g, s.current_fixation = some g → g.position.isSome) ∧
  (∀ g ∈ s.fixations, g.position.isSome)

lemma step_posInv (s : TrackerState) (pos : ℚ × ℚ) (ts : ℚ)
    (h : posInv s) : posInv (detect_fixation s pos ts).1 := by
  by_cases h2 : (pushWindow s.positions_history (pos, ts)).length < 2
  · rw [step_short s pos ts h2]; exact h
  · have h2' : 2 ≤ (pushWindow s.positions_history (pos, ts)).length := by omega
    by_cases hst : maxSqDist (pushWindow s.positions_history (pos, ts)) <
        fixation_threshold ^ 2 ∧
      fixation_duration ≤ spanOf (pushWindow s.positions_history (pos, ts))
    · cases hc : s.current_fixation with
      | none =>
        rw [step_stable_none s pos ts hc h2' hst]
        refine ⟨?_, h.2⟩
        intro g hg
        simp only [Option.some.injEq] at hg
        rw [← hg]
        rfl
      | some f =>
        rw [step_stable_some s pos ts f hc h2' hst]
        refine ⟨?_, h.2⟩
        intro g hg
        simp only [Option.some.injEq] at hg
        rw [← hg]
        exact h.1 f hc
    · cases hc : s.current_fixation with
      | none => rw [step_unstable_none s pos ts hc h2' hst]; exact h
      | some f =>
        rw [step_unstable_some s pos ts f hc h2' hst]
        refine ⟨?_, ?_⟩
        · intro g hg; simp at hg
        · intro g hg
          rcases List.mem_append.mp hg with hg | hg
          · exact h.2 g hg
          · rw [List.mem_singleton.mp hg]
            exact h.1 f hc

lemma run_posInv (inputs : List Sample) : ∀ s : TrackerState,
    posInv s → posInv (run s inputs) := by
  induction inputs with
  | nil => intro s h; exact h
  | cons e rest ih =>
    intro s h
    rw [run_cons]
    exact ih _ (step_posInv s e.1 e.2 h)

/-- Concrete tracker state used by witnesses: one sample in the history,
no open fixation, empty log. -/
def wNone : TrackerState :=
  { positions_history := [((0, 0), 0)]
    current_fixation := none
    fixations := [] }

/-- Concrete tracker state used by witnesses: one sample in the history,
an open fixation, empty log. -/
def wOpen : TrackerState :=
  { positions_history := [((0, 0), 0)]
    current_fixation := some ⟨0, some (0, 0), 30⟩
    fixations := [] }

/-- Claim C2: with at least two samples in the window after the push,
`detect_fixation` returns an open fixation (opened or maintained)
exactly when every Euclidean distance from the window's first (oldest)
sample to a window sample (the first itself included) is strictly below
20 — equivalently, the maximum of those distances is strictly below
20 — and the newest window timestamp minus the oldest is at least 30.
The duration tested is `spanOf`, newest minus oldest timestamp, by
definition. -/
theorem stable_iff_euclid_and_span (s : TrackerState) (pos : ℚ × ℚ) (ts : ℚ)
    (h2 : 2 ≤ (pushWindow s.positions_history (pos, ts)).length) :
    ((detect_fixation s pos ts).2.isSome = true ↔
      ((∀ q ∈ pushWindow s.positions_history (pos, ts),
          Real.sqrt ((sqDist (firstPos (pushWindow s.positions_history (pos, ts)))
            q.1 : ℚ) : ℝ) < 20) ∧
        (30 : ℚ) ≤ spanOf (pushWindow s.positions_history (pos, ts)))) := by
  rw [isSome_iff_stable s pos ts h2]
  have hne : pushWindow s.positions_history (pos, ts) ≠ [] := by
    intro hc
    rw [hc] at h2
    simp at h2
  apply and_congr
  · rw [show fixation_threshold ^ 2 = (400 : ℚ) by norm_num [fixation_threshold]]
    rw [maxSqDist_lt_iff_firstPos _ hne]
    exact forall_congr' fun q => imp_congr_right fun _ =>
      (sqrt_lt_twenty_iff _).symm
  · exact Iff.rfl

/-- Witness for C2 at a concrete two-sample window. -/
theorem stable_iff_euclid_and_span_witness :
    2 ≤ (pushWindow wNone.positions_history ((0, 0), 30)).length ∧
    ((detect_fixation wNone (0, 0) 30).2.isSome = true ↔
      ((∀ q ∈ pushWindow wNone.positions_history ((0, 0), 30),
          Real.sqrt ((sqDist (firstPos (pushWindow wNone.positions_history ((0, 0), 30)))
            q.1 : ℚ) : ℝ) < 20) ∧
        (30 : ℚ) ≤ spanOf (pushWindow wNone.positions_history ((0, 0), 30)))) :=
  ⟨by decide, stable_iff_euclid_and_span wNone (0, 0) 30 (by decide)⟩

/-- Claim C3: a stable call with no open fixation opens one whose start time
is the oldest window timestamp, whose position is the per-axis mean of
all window positions, and whose duration is the newest minus the oldest
window timestamp; that fixation is also the returned value. -/
theorem open_fixation_fields (s : TrackerState) (pos : ℚ × ℚ) (ts : ℚ)
    (hn : s.current_fixation = none)
    (h2 : 2 ≤ (pushWindow s.positions_history (pos, ts)).length)
    (hst : maxSqDist (pushWindow s.positions_history (pos, ts)) <
        fixation_threshold ^ 2 ∧
      fixation_duration ≤ spanOf (pushWindow s.positions_history (pos, ts))) :
    (detect_fixation s pos ts).1.current_fixation =
        some ⟨firstTs (pushWindow s.positions_history (pos, ts)),
          some (meanPos (pushWindow s.positions_history (pos, ts))),
          spanOf (pushWindow s.positions_history (pos, ts))⟩ ∧
      (detect_fixation s pos ts).2 =
        some ⟨firstTs (pushWindow s.positions_history (pos, ts)),
          some (meanPos (pushWindow s.positions_history (pos, ts))),
          spanOf (pushWindow s.positions_history (pos, ts))⟩ := by
  rw [step_stable_none s pos ts hn h2 hst]
  exact ⟨rfl, rfl⟩

/-- Witness for C3 at a concrete two-sample stable window. -/
theorem open_fixation_fields_witness :
    wNone.current_fixation = none ∧
    2 ≤ (pushWindow wNone.positions_history ((0, 0), 30)).length ∧
    (maxSqDist (pushWindow wNone.positions_history ((0, 0), 30)) <
        fixation_threshold ^ 2 ∧
      fixation_duration ≤ spanOf (pushWindow wNone.positions_history ((0, 0), 30))) ∧
    ((detect_fixation wNone (0, 0) 30).1.current_fixation =
        some ⟨firstTs (pushWindow wNone.positions_history ((0, 0), 30)),
          some (meanPos (pushWindow wNone.positions_history ((0, 0), 30))),
          spanOf (pushWindow wNone.positions_history ((0, 0), 30))⟩ ∧
      (detect_fixation wNone (0, 0) 30).2 =
        some ⟨firstTs (pushWindow wNone.positions_history ((0, 0), 30)),
          some (meanPos (pushWindow wNone.positions_history ((0, 0), 30))),
          spanOf (pushWindow wNone.positions_history ((0, 0), 30))⟩) :=
  ⟨by decide, by decide, by decide,
    open_fixation_fields wNone (0, 0) 30 (by decide) (by decide) (by decide)⟩

/-- Claim C4: a stable call with an open fixation returns an open fixation
whose start time and position are exactly those of the fixation from
before the call and whose duration is the current window span — only
the duration field is updated. -/
theorem update_preserves_position_and_start (s : TrackerState) (pos : ℚ × ℚ)
    (ts : ℚ) (f : Fixation)
    (hf : s.current_fixation = some f)
    (h2 : 2 ≤ (pushWindow s.positions_history (pos, ts)).length)
    (hst : maxSqDist (pushWindow s.positions_history (pos, ts)) <
        fixation_threshold ^ 2 ∧
      fixation_duration ≤ spanOf (pushWindow s.positions_history (pos, ts))) :
    ∃ g, (detect_fixation s pos ts).1.current_fixation = some g ∧
      (detect_fixation s pos ts).2 = some g ∧
      g.start_time = f.start_time ∧ g.position = f.position ∧
      g.duration = spanOf (pushWindow s.positions_history (pos, ts)) := by
  rw [step_stable_some s pos ts f hf h2 hst]
  exact ⟨_, rfl, rfl, rfl, rfl, rfl⟩

/-- Witness for C4 at a concrete stable window with an open fixation. -/
theorem update_preserves_position_and_start_witness :
    wOpen.current_fixation = some ⟨0, some (0, 0), 30⟩ ∧
    2 ≤ (pushWindow wOpen.positions_history ((0, 0), 60)).length ∧
    (maxSqDist (pushWindow wOpen.positions_history ((0, 0), 60)) <
        fixation_threshold ^ 2 ∧
      fixation_duration ≤ spanOf (pushWindow wOpen.positions_history ((0, 0), 60))) ∧
    (∃ g, (detect_fixation wOpen (0, 0) 60).1.current_fixation = some g ∧
      (detect_fixation wOpen (0, 0) 60).2 = some g ∧
      g.start_time = Fixation.start_time ⟨0, some (0, 0), 30⟩ ∧
      g.position = Fixation.position ⟨0, some (0, 0), 30⟩ ∧
      g.duration = spanOf (pushWindow wOpen.positions_history ((0, 0), 60))) :=
  ⟨by decide, by decide, by decide,
    update_preserves_position_and_start wOpen (0, 0) 60 ⟨0, some (0, 0), 30⟩
      (by decide) (by decide) (by decide)⟩

/-- Claim C5: an unstable call (with at least two window samples) while a
fixation is open appends exactly that frozen fixation to the closed log,
clears the open slot, returns none, and leaves the window uncleared —
it still holds its samples, the just-pushed one last. -/
theorem close_appends_and_clears (s : TrackerState) (pos : ℚ × ℚ) (ts : ℚ)
    (f : Fixation)
    (hf : s.current_fixation = some f)
    (h2 : 2 ≤ (pushWindow s.positions_history (pos, ts)).length)
    (hst : ¬ (maxSqDist (pushWindow s.positions_history (pos, ts)) <
        fixation_threshold ^ 2 ∧
      fixation_duration ≤ spanOf (pushWindow s.positions_history (pos, ts)))) :
    (detect_fixation s pos ts).1.fixations = s.fixations ++ [f] ∧
    (detect_fixation s pos ts).1.current_fixation = none ∧
    (detect_fixation s pos ts).2 = none ∧
    (detect_fixation s pos ts).1.positions_history =
      pushWindow s.positions_history (pos, ts) ∧
    (detect_fixation s pos ts).1.positions_history.getLast? = some (pos, ts) := by
  rw [step_unstable_some s pos ts f hf h2 hst]
  exact ⟨rfl, rfl, rfl, rfl, pushWindow_getLast _ _⟩

/-- Witness for C5 at a concrete unstable window with an open fixation. -/
theorem close_appends_and_clears_witness :
    wOpen.current_fixation = some ⟨0, some (0, 0), 30⟩ ∧
    2 ≤ (pushWindow wOpen.positions_history ((1000, 1000), 60)).length ∧
    (¬ (maxSqDist (pushWindow wOpen.positions_history ((1000, 1000), 60)) <
        fixation_threshold ^ 2 ∧
      fixation_duration ≤ spanOf (pushWindow wOpen.positions_history ((1000, 1000), 60)))) ∧
    ((detect_fixation wOpen (1000, 1000) 60).1.fixations =
        wOpen.fixations ++ [⟨0, some (0, 0), 30⟩] ∧
      (detect_fixation wOpen (1000, 1000) 60).1.current_fixation = none ∧
      (detect_fixation wOpen (1000, 1000) 60).2 = none ∧
      (detect_fixation wOpen (1000, 1000) 60).1.positions_history =
        pushWindow wOpen.positions_history ((1000, 1000), 60) ∧
      (detect_fixation wOpen (1000, 1000) 60).1.positions_history.getLast? =
        some ((1000, 1000), 60)) :=
  ⟨by decide, by decide, by decide,
    close_appends_and_clears wOpen (1000, 1000) 60 ⟨0, some (0, 0), 30⟩
      (by decide) (by decide) (by decide)⟩

/-- Claim C6: the example scenario.  Points (100,100) at t=0, (101,100) at
t=5, (100,101) at t=10, (100,100) at t=40 leave no fixation open after
calls 1–3, open one with start time 0 at the 4th call, and a 5th point
(500,500) at t=45 closes it: the log reaches length 1 and the open slot
becomes none. -/
theorem example_scenario_open_then_close :
    (run initState [((100, 100), 0)]).current_fixation = none ∧
    (run initState [((100, 100), 0), ((101, 100), 5)]).current_fixation = none ∧
    (run initState [((100, 100), 0), ((101, 100), 5),
      ((100, 101), 10)]).current_fixation = none ∧
    ((run initState [((100, 100), 0), ((101, 100), 5), ((100, 101), 10),
      ((100, 100), 40)]).current_fixation.map Fixation.start_time) = some 0 ∧
    (run initState [((100, 100), 0), ((101, 100), 5), ((100, 101), 10),
      ((100, 100), 40), ((500, 500), 45)]).current_fixation = none ∧
    (run initState [((100, 100), 0), ((101, 100), 5), ((100, 101), 10),
      ((100, 100), 40), ((500, 500), 45)]).fixations.length = 1 := by decide

/-- Claim C7: the window never exceeds 10 samples along any run from a state
within capacity; a push at capacity drops exactly the oldest sample and
appends the new one at the end, otherwise it just appends (FIFO); and
when fewer than 2 samples are present after the push the call returns
none, leaving both the open slot and the closed log unchanged. -/
theorem window_bounded_fifo_and_short_return (s : TrackerState)
    (pos : ℚ × ℚ) (ts : ℚ) (inputs : List Sample)
    (h : s.positions_history.length ≤ 10) :
    (run s inputs).positions_history.length ≤ 10 ∧
    (detect_fixation s pos ts).1.positions_history =
      (if s.positions_history.length = 10
        then s.positions_history.tail ++ [(pos, ts)]
        else s.positions_history ++ [(pos, ts)]) ∧
    ((pushWindow s.positions_history (pos, ts)).length < 2 →
      (detect_fixation s pos ts).2 = none ∧
      (detect_fixation s pos ts).1.current_fixation = s.current_fixation ∧
      (detect_fixation s pos ts).1.fixations = s.fixations) := by
  refine ⟨run_window_le inputs s h, ?_, ?_⟩
  · rw [step_positions_history, pushWindow_eq_drop]
    by_cases h10 : s.positions_history.length = 10
    · rw [if_pos h10, h10]
      simp [history_maxlen, List.drop_one]
    · rw [if_neg h10]
      have h0 : s.positions_history.length + 1 - history_maxlen = 0 := by
        simp only [history_maxlen]
        omega
      rw [h0, List.drop_zero]
  · intro hlt
    rw [step_short s pos ts hlt]
    exact ⟨rfl, rfl, rfl⟩

/-- Witness for C7 at a concrete one-sample state and one-step run. -/
theorem window_bounded_fifo_and_short_return_witness :
    wNone.positions_history.length ≤ 10 ∧
    ((run wNone [((1, 1), 2)]).positions_history.length ≤ 10 ∧
    (detect_fixation wNone (5, 5) 7).1.positions_history =
      (if wNone.positions_history.length = 10
        then wNone.positions_history.tail ++ [((5, 5), 7)]
        else wNone.positions_history ++ [((5, 5), 7)]) ∧
    ((pushWindow wNone.positions_history ((5, 5), 7)).length < 2 →
      (detect_fixation wNone (5, 5) 7).2 = none ∧
      (detect_fixation wNone (5, 5) 7).1.current_fixation = wNone.current_fixation ∧
      (detect_fixation wNone (5, 5) 7).1.fixations = wNone.fixations)) :=
  ⟨by decide,
    window_bounded_fifo_and_short_return wNone (5, 5) 7 [((1, 1), 2)] (by decide)⟩

/-- Claim C8: with zero detected faces, `detect_pupil` returns the pair
(none, none) for the two pupil centres and does not fail (the outer
`some` records the absence of any raised error). -/
theorem no_face_returns_none_pair (width height : ℕ)
    (leftIris rightIris : List ℕ) :
    detect_pupil none width height leftIris rightIris = some (none, none) := rfl

/-- Claim C9: iris index set [0,1,2,3] over the normalized landmarks
(0.5,0.5), (0.6,0.5), (0.5,0.6), (0.6,0.6) on a 100 by 100 frame gives
the pupil centre (55, 55): denormalize, truncate to integers, then take
the per-axis mean. -/
theorem iris_center_concrete :
    detect_pupil (some [(1/2, 1/2), (3/5, 1/2), (1/2, 3/5), (3/5, 3/5)])
      100 100 [0, 1, 2, 3] [0, 1, 2, 3] =
      some (some (55, 55), some (55, 55)) := by decide

/-- Claim C10: from a fresh tracker, after any observation sequence, the open
fixation (when one exists) and every fixation in the closed log carry a
concrete position — the none branch of the position guard at open time
is unreachable because opening requires at least two window samples. -/
theorem open_fixation_position_some (inputs : List Sample) :
    ((run initState inputs).current_fixation.all fun g => g.position.isSome)
        = true ∧
    ((run initState inputs).fixations.all fun g => g.position.isSome) = true := by
  have h : posInv (run initState inputs) := by
    refine run_posInv inputs initState ⟨?_, ?_⟩
    · intro g hg
      simp [initState] at hg
    · intro g hg
      simp [initState] at hg
  refine ⟨?_, ?_⟩
  · cases hc : (run initState inputs).current_fixation with
    | none => rfl
    | some g => simpa using h.1 g hc
  · rw [List.all_eq_true]
    intro g hg
    exact h.2 g hg

/-- Claim C1 counterexample: a fixation that outlives the 10-sample window.
All positions are equal; timestamps run 0, 30, 60, …, 330, then a far
point at t = 360 closes the fixation.  The last stable observation while
it was open has timestamp 330 and the fixation's start time is 0, yet
the closed record's stored duration is 270 — the span of the sliding
window at the last stable observation — and not 330 − 0 as the claim
demands. -/
theorem duration_not_span_since_start_counterexample :
    ((run initState [((0, 0), 0), ((0, 0), 30), ((0, 0), 60), ((0, 0), 90),
        ((0, 0), 120), ((0, 0), 150), ((0, 0), 180), ((0, 0), 210),
        ((0, 0), 240), ((0, 0), 270), ((0, 0), 300),
        ((0, 0), 330)]).current_fixation = some ⟨0, some (0, 0), 270⟩) ∧
    ((run initState [((0, 0), 0), ((0, 0), 30), ((0, 0), 60), ((0, 0), 90),
        ((0, 0), 120), ((0, 0), 150), ((0, 0), 180), ((0, 0), 210),
        ((0, 0), 240), ((0, 0), 270), ((0, 0), 300), ((0, 0), 330),
        ((1000, 1000), 360)]).fixations = [⟨0, some (0, 0), 270⟩]) ∧
    ((run initState [((0, 0), 0), ((0, 0), 30), ((0, 0), 60), ((0, 0), 90),
        ((0, 0), 120), ((0, 0), 150), ((0, 0), 180), ((0, 0), 210),
        ((0, 0), 240), ((0, 0), 270), ((0, 0), 300), ((0, 0), 330),
        ((1000, 1000), 360)]).current_fixation = none) ∧
    (270 : ℚ) ≠ 330 - 0 := by decide

/-- Claim C1 amended: whenever a call leaves a fixation open, its stored
duration equals the span (newest minus oldest timestamp) of the current
window; and the closing call appends the open fixation frozen as-is.
Hence a closed fixation's duration is the window span at the last stable
observation, which can be smaller than that observation's timestamp
minus the fixation's start time once the opening sample has been evicted
from the 10-sample window. -/
theorem closed_fixation_duration_is_last_window_span (s : TrackerState)
    (pos : ℚ × ℚ) (ts : ℚ) (hne : s.positions_history ≠ []) :
    (∀ g, (detect_fixation s pos ts).1.current_fixation = some g →
      g.duration = spanOf ((detect_fixation s pos ts).1.positions_history)) ∧
    (∀ g, (detect_fixation s pos ts).1.fixations = s.fixations ++ [g] →
      s.current_fixation = some g ∧
        (detect_fixation s pos ts).1.current_fixation = none) := by
  have h2 : 2 ≤ (pushWindow s.positions_history (pos, ts)).length := by
    rw [pushWindow_length]
    have h1 : 0 < s.positions_history.length := List.length_pos.mpr hne
    simp only [history_maxlen]
    omega
  by_cases hst : maxSqDist (pushWindow s.positions_history (pos, ts)) <
      fixation_threshold ^ 2 ∧
    fixation_duration ≤ spanOf (pushWindow s.positions_history (pos, ts))
  · cases hc : s.current_fixation with
    | none =>
      rw [step_stable_none s pos ts hc h2 hst]
      refine ⟨?_, ?_⟩
      · intro g hg
        simp only [Option.some.injEq] at hg
        rw [← hg]
      · intro g hg
        exfalso
        have hlen := congrArg List.length hg
        simp at hlen
    | some f =>
      rw [step_stable_some s pos ts f hc h2 hst]
      refine ⟨?_, ?_⟩
      · intro g hg
        simp only [Option.some.injEq] at hg
        rw [← hg]
      · intro g hg
        exfalso
        have hlen := congrArg List.length hg
        simp at hlen
  · cases hc : s.current_fixation with
    | none =>
      rw [step_unstable_none s pos ts hc h2 hst]
      refine ⟨?_, ?_⟩
      · intro g hg
        simp [hc] at hg
      · intro g hg
        exfalso
        have hlen := congrArg List.length hg
        simp at hlen
    | some f =>
      rw [step_unstable_some s pos ts f hc h2 hst]
      refine ⟨?_, ?_⟩
      · intro g hg
        simp at hg
      · intro g hg
        have hfg : f = g := by
          have := List.append_cancel_left hg
          simpa using this
        exact ⟨by rw [hfg], rfl⟩

/-- Witness for the amended C1 at a concrete one-sample state. -/
theorem closed_fixation_duration_is_last_window_span_witness :
    wNone.positions_history ≠ [] ∧
    ((∀ g, (detect_fixation wNone (0, 0) 30).1.current_fixation = some g →
      g.duration = spanOf ((detect_fixation wNone (0, 0) 30).1.positions_history)) ∧
    (∀ g, (detect_fixation wNone (0, 0) 30).1.fixations = wNone.fixations ++ [g] →
      wNone.current_fixation = some g ∧
        (detect_fixation wNone (0, 0) 30).1.current_fixation = none)) :=
  ⟨by decide, closed_fixation_duration_is_last_window_span wNone (0, 0) 30 (by decide)⟩

end Dyslexia
